import Mathlib

/-!
Verification of the mini-language interpreter (tokenizer, recursive-descent
parsing, tree-walking evaluation) found in `functional/main.py`.

Numbers are modelled as rationals (`ℚ`): the Python program stores numeric
values as IEEE doubles, but every literal is an integer and all the facts
checked here involve exact small-magnitude arithmetic where double and
rational arithmetic coincide.

Python exceptions are modelled with `Except`; the in-place mutation of the
environment dictionary is modelled by threading and returning the
environment explicitly, including on the error path (so that the state of
the environment at the moment an exception escapes is observable, exactly
as the caller of the Python function observes the mutated dict).
-/

namespace MiniLang

/-- Runtime values: floats, booleans and Python's `None`
(returned by an `if` with a false condition and no else branch). -/
inductive Value where
  | num (q : ℚ)
  | bool (b : Bool)
  | none
deriving DecidableEq, Repr

/-- AST node variants, mirroring the Python classes `Number`, `Variable`,
`Assignment`, `BinaryOp` and `IfStatement` (whose `else_branch` defaults
to Python `None`, modelled with `Option`). -/
inductive ASTNode where
  | Number (value : ℚ)
  | Variable (name : String)
  | Assignment (name : String) (value : ASTNode)
  | BinaryOp (left : ASTNode) (operator : String) (right : ASTNode)
  | IfStatement (condition : ASTNode) (thenBranch : ASTNode) (elseBranch : Option ASTNode)

/-- Boolean equality test on AST nodes (the nested `Option` defeats the
automatic `DecidableEq` derivation, so it is spelled out). -/
def astBeq : ASTNode → ASTNode → Bool
  | .Number v, .Number w => v == w
  | .Variable n, .Variable m => n == m
  | .Assignment n v, .Assignment m w => n == m && astBeq v w
  | .BinaryOp l o r, .BinaryOp l2 o2 r2 => astBeq l l2 && o == o2 && astBeq r r2
  | .IfStatement c t (some e), .IfStatement c2 t2 (some e2) =>
    astBeq c c2 && astBeq t t2 && astBeq e e2
  | .IfStatement c t Option.none, .IfStatement c2 t2 Option.none =>
    astBeq c c2 && astBeq t t2
  | _, _ => false

theorem astBeq_refl : (a : ASTNode) → astBeq a a = true
  | .Number v => by simp [astBeq]
  | .Variable n => by simp [astBeq]
  | .Assignment n v => by simp [astBeq, astBeq_refl v]
  | .BinaryOp l o r => by simp [astBeq, astBeq_refl l, astBeq_refl r]
  | .IfStatement c t (some e) => by simp [astBeq, astBeq_refl c, astBeq_refl t, astBeq_refl e]
  | .IfStatement c t Option.none => by simp [astBeq, astBeq_refl c, astBeq_refl t]

theorem eq_of_astBeq : (a b : ASTNode) → astBeq a b = true → a = b
  | .Number v, b, h => by
    cases b <;> simp only [astBeq, Bool.false_eq_true, beq_iff_eq] at h
    rw [h]
  | .Variable n, b, h => by
    cases b <;> simp only [astBeq, Bool.false_eq_true, beq_iff_eq] at h
    rw [h]
  | .Assignment n v, b, h => by
    cases b <;> simp only [astBeq, Bool.false_eq_true, Bool.and_eq_true, beq_iff_eq] at h
    next m w => rw [h.1, eq_of_astBeq v w h.2]
  | .BinaryOp l o r, b, h => by
    cases b <;> simp only [astBeq, Bool.false_eq_true, Bool.and_eq_true, beq_iff_eq] at h
    next l2 o2 r2 => rw [h.1.2, eq_of_astBeq l l2 h.1.1, eq_of_astBeq r r2 h.2]
  | .IfStatement c t (some e), b, h => by
    cases b <;> try simp only [astBeq, Bool.false_eq_true, Bool.and_eq_true] at h
    next c2 t2 e2 =>
      cases e2 <;> simp only [astBeq, Bool.false_eq_true, Bool.and_eq_true] at h
      next e2 =>
        rw [eq_of_astBeq c c2 h.1.1, eq_of_astBeq t t2 h.1.2, eq_of_astBeq e e2 h.2]
  | .IfStatement c t Option.none, b, h => by
    cases b <;> try simp only [astBeq, Bool.false_eq_true, Bool.and_eq_true] at h
    next c2 t2 e2 =>
      cases e2 <;> simp only [astBeq, Bool.false_eq_true, Bool.and_eq_true] at h
      rw [eq_of_astBeq c c2 h.1, eq_of_astBeq t t2 h.2]

instance : DecidableEq ASTNode := fun a b =>
  decidable_of_iff (astBeq a b = true)
    ⟨eq_of_astBeq a b, fun h => h ▸ astBeq_refl a⟩

instance {ε α : Type} [DecidableEq ε] [DecidableEq α] : DecidableEq (Except ε α)
  | .ok a, .ok b =>
    match decEq a b with
    | isTrue h => isTrue (by rw [h])
    | isFalse h => isFalse (by intro hh; cases hh; exact h rfl)
  | .error a, .error b =>
    match decEq a b with
    | isTrue h => isTrue (by rw [h])
    | isFalse h => isFalse (by intro hh; cases hh; exact h rfl)
  | .ok _, .error _ => isFalse (by intro hh; cases hh)
  | .error _, .ok _ => isFalse (by intro hh; cases hh)

/-- The environment: Python's `env` dict, as an association list. -/
def Env : Type := List (String × Value)

instance : DecidableEq Env := by unfold Env; infer_instance

/-- Errors the parser raises: the three `SyntaxError` messages of the
source, plus `indexError` for Python's `IndexError` raised by `tokens[i]`
with `i` out of bounds (the spec's `UnexpectedEndOfInput` kind). -/
inductive ParseError where
  | unexpectedToken
  | missingParen
  | missingThen
  | indexError
deriving DecidableEq, Repr

/-- Errors the evaluator raises: `NameError`, `ZeroDivisionError`,
`ValueError` for an unknown operator, and `TypeError` (arithmetic or
ordering applied to Python `None`). -/
inductive EvalError where
  | undefinedVariable (name : String)
  | divisionByZero
  | unknownOperator (op : String)
  | typeError
deriving DecidableEq, Repr

/-! ## Tokenizer

Python: `re.findall(r"\s*(=>|[-+*/=><()])|([a-zA-Z_][a-zA-Z0-9_]*)|([0-9]+)", s)`,
keeping, for each match, whichever capture group is nonempty.  `findall`
scans left to right, skipping characters where no alternative matches.
-/

/-- ASCII whitespace accepted by the regex class `\s`. -/
def isWsChar (c : Char) : Bool :=
  c = ' ' || c = '\t' || c = '\n' || c = '\r' || c = '\x0b' || c = '\x0c'

/-- The single-character symbol class `[-+*/=><()]`. -/
def isSymbolChar (c : Char) : Bool :=
  c = '-' || c = '+' || c = '*' || c = '/' || c = '=' || c = '>' || c = '<' || c = '(' || c = ')'

/-- First character of an identifier: `[a-zA-Z_]`. -/
def isIdentStartChar (c : Char) : Bool :=
  c.isAlpha || c = '_'

/-- Continuation character of an identifier: `[a-zA-Z0-9_]`. -/
def isIdentChar (c : Char) : Bool :=
  c.isAlphanum || c = '_'

/-- One step of the `findall` scan, on the character list of the input.
Whitespace preceding a symbol is consumed by the `\s*` of the first
alternative but captures nothing, so dropping it one character at a time
yields the same token list; a character no alternative matches is skipped.
Every step consumes at least one character and one unit of fuel, so fuel
equal to the number of characters is always sufficient. -/
def tokenizeAux : Nat → List Char → List String
  | 0, _ => []
  | _ + 1, [] => []
  | fuel + 1, c :: rest =>
    if isWsChar c then
      tokenizeAux fuel rest
    else if c = '=' ∧ rest.head? = some '>' then
      "=>" :: tokenizeAux fuel rest.tail
    else if isSymbolChar c then
      String.mk [c] :: tokenizeAux fuel rest
    else if isIdentStartChar c then
      String.mk (c :: rest.takeWhile isIdentChar) :: tokenizeAux fuel (rest.dropWhile isIdentChar)
    else if c.isDigit then
      String.mk (c :: rest.takeWhile Char.isDigit) :: tokenizeAux fuel (rest.dropWhile Char.isDigit)
    else
      tokenizeAux fuel rest

/-- `tokenize(input_code)`. -/
def tokenize (s : String) : List String :=
  tokenizeAux s.data.length s.data

/-! ## Parsing -/

/-- Python `token.isdigit()` (ASCII; tokens produced here are ASCII). -/
def isDigitStr (s : String) : Bool :=
  !s.data.isEmpty && s.data.all Char.isDigit

/-- Python `token.isidentifier()` (ASCII; keywords like `if` count). -/
def isIdentStr (s : String) : Bool :=
  match s.data with
  | [] => false
  | c :: rest => isIdentStartChar c && rest.all isIdentChar

/-- Numeric value of a digit-run token, as `float(token)` does. -/
def digitsToNat (s : String) : Nat :=
  s.data.foldl (fun n c => 10 * n + (c.toNat - 48)) 0

/-- `{'+': 1, '-': 1, '*': 2, '/': 2, '>': 3, '<': 3, '=': 0}.get(op, -1)`. -/
def opPrecedence (op : String) : Int :=
  if op = "+" then 1
  else if op = "-" then 1
  else if op = "*" then 2
  else if op = "/" then 2
  else if op = ">" then 3
  else if op = "<" then 3
  else if op = "=" then 0
  else -1

mutual

/-- `parse_primary(pos)`.  All parsing functions take a fuel argument that
strictly decreases on every call; `parse` below supplies more fuel than any
run can consume, so exhaustion (mapped to `indexError`) is unreachable. -/
def parsePrimary (tokens : List String) : Nat → Nat → Except ParseError (ASTNode × Nat)
  | 0, _ => .error .indexError
  | fuel + 1, pos =>
    match tokens.get? pos with
    | Option.none => .error .indexError
    | some token =>
      if isDigitStr token then .ok (.Number (digitsToNat token : ℚ), pos + 1)
      else if isIdentStr token then .ok (.Variable token, pos + 1)
      else if token = "(" then
        match parseExpression tokens fuel (pos + 1) with
        | .error e => .error e
        | .ok (node, newPos) =>
          match tokens.get? newPos with
          | Option.none => .error .indexError
          | some t => if t ≠ ")" then .error .missingParen else .ok (node, newPos + 1)
      else .error .unexpectedToken
termination_by structural fuel => fuel

/-- The `while` loop inside `parse_binary_op`, with `left` and `pos` as the
loop state. -/
def parseBinLoop (tokens : List String) : Nat → ASTNode → Nat → Int → Except ParseError (ASTNode × Nat)
  | 0, _, _, _ => .error .indexError
  | fuel + 1, left, pos, precedence =>
    if pos < tokens.length then
      match tokens.get? pos with
      | Option.none => .error .indexError
      | some op =>
        if opPrecedence op < precedence then .ok (left, pos)
        else
          match parseBinaryOp tokens fuel (pos + 1) (opPrecedence op + 1) with
          | .error e => .error e
          | .ok (right, newPos) =>
            parseBinLoop tokens fuel (.BinaryOp left op right) newPos precedence
    else .ok (left, pos)
termination_by structural fuel => fuel

/-- `parse_binary_op(pos, precedence)`. -/
def parseBinaryOp (tokens : List String) : Nat → Nat → Int → Except ParseError (ASTNode × Nat)
  | 0, _, _ => .error .indexError
  | fuel + 1, pos, precedence =>
    match parsePrimary tokens fuel pos with
    | .error e => .error e
    | .ok (left, pos1) => parseBinLoop tokens fuel left pos1 precedence
termination_by structural fuel => fuel

/-- `parse_expression(pos)` = `parse_binary_op(pos)` with default precedence 0. -/
def parseExpression (tokens : List String) : Nat → Nat → Except ParseError (ASTNode × Nat)
  | 0, _ => .error .indexError
  | fuel + 1, pos => parseBinaryOp tokens fuel pos 0
termination_by structural fuel => fuel

/-- `parse_statement(pos)`.  When the first token is an identifier, Python
evaluates `tokens[pos + 1] == '='` before anything else, so a lone trailing
identifier raises `IndexError`. -/
def parseStatement (tokens : List String) : Nat → Nat → Except ParseError (ASTNode × Nat)
  | 0, _ => .error .indexError
  | fuel + 1, pos =>
    match tokens.get? pos with
    | Option.none => .error .indexError
    | some token =>
      if isIdentStr token then
        match tokens.get? (pos + 1) with
        | Option.none => .error .indexError
        | some t1 =>
          if t1 = "=" then
            match parseExpression tokens fuel (pos + 2) with
            | .error e => .error e
            | .ok (value, newPos) => .ok (.Assignment token value, newPos)
          else parseIfOrExpr tokens fuel pos token
      else parseIfOrExpr tokens fuel pos token
termination_by structural fuel => fuel

/-- The `elif token == 'if'` / `else` arms of `parse_statement`.  Note the
unguarded probe `tokens[new_pos] == 'else'` after the then-branch: with the
then-branch ending the token list it raises `IndexError`. -/
def parseIfOrExpr (tokens : List String) : Nat → Nat → String → Except ParseError (ASTNode × Nat)
  | 0, _, _ => .error .indexError
  | fuel + 1, pos, token =>
    if token = "if" then
      match parseExpression tokens fuel (pos + 1) with
      | .error e => .error e
      | .ok (condition, p1) =>
        match tokens.get? p1 with
        | Option.none => .error .indexError
        | some t =>
          if t ≠ "then" then .error .missingThen
          else
            match parseStatement tokens fuel (p1 + 1) with
            | .error e => .error e
            | .ok (thenBranch, p2) =>
              match tokens.get? p2 with
              | Option.none => .error .indexError
              | some t2 =>
                if t2 = "else" then
                  match parseStatement tokens fuel (p2 + 1) with
                  | .error e => .error e
                  | .ok (elseBranch, p3) =>
                    .ok (.IfStatement condition thenBranch (some elseBranch), p3)
                else .ok (.IfStatement condition thenBranch Option.none, p2)
    else parseExpression tokens fuel pos
termination_by structural fuel => fuel

end

/-- `parse(tokens)`: parse one statement from position 0, discarding the
final position (and with it any unconsumed trailing tokens). -/
def parse (tokens : List String) : Except ParseError ASTNode :=
  match parseStatement tokens (8 * tokens.length + 8) 0 with
  | .ok (ast, _) => .ok ast
  | .error e => .error e

/-! ## Evaluation -/

/-- Lookup in the environment dict (`node.name in env` / `env[node.name]`). -/
def lookupEnv : Env → String → Option Value
  | [], _ => Option.none
  | (k, v) :: rest, n => if k = n then some v else lookupEnv rest n

/-- The dict update `env[name] = value`. -/
def updateEnv : Env → String → Value → Env
  | [], n, v => [(n, v)]
  | (k, w) :: rest, n, v =>
    if k = n then (n, v) :: rest else (k, w) :: updateEnv rest n v

/-- Numeric view of a value, as Python's arithmetic and comparison
operators see it: booleans coerce to 0/1, `None` has no numeric view
(arithmetic or ordering on it raises `TypeError`). -/
def toNum : Value → Option ℚ
  | .num q => some q
  | .bool b => some (if b then 1 else 0)
  | .none => Option.none

/-- Python truthiness of a value (`if condition:`). -/
def truthy : Value → Bool
  | .num q => decide (q ≠ 0)
  | .bool b => b
  | .none => false

/-- The operator dispatch in `evaluate`'s `BinaryOp` arm, applied after
both operands are evaluated.  `/` checks `right == 0` (true also for
`False`) before dividing; `=` is Python `==`, which never raises. -/
def applyOp (op : String) (l r : Value) : Except EvalError Value :=
  if op = "+" then
    match toNum l, toNum r with
    | some a, some b => .ok (.num (a + b))
    | _, _ => .error .typeError
  else if op = "-" then
    match toNum l, toNum r with
    | some a, some b => .ok (.num (a - b))
    | _, _ => .error .typeError
  else if op = "*" then
    match toNum l, toNum r with
    | some a, some b => .ok (.num (a * b))
    | _, _ => .error .typeError
  else if op = "/" then
    if toNum r = some 0 then .error .divisionByZero
    else
      match toNum l, toNum r with
      | some a, some b => .ok (.num (a / b))
      | _, _ => .error .typeError
  else if op = ">" then
    match toNum l, toNum r with
    | some a, some b => .ok (.bool (decide (b < a)))
    | _, _ => .error .typeError
  else if op = "<" then
    match toNum l, toNum r with
    | some a, some b => .ok (.bool (decide (a < b)))
    | _, _ => .error .typeError
  else if op = "=" then
    match toNum l, toNum r with
    | some a, some b => .ok (.bool (decide (a = b)))
    | some _, Option.none => .ok (.bool false)
    | Option.none, some _ => .ok (.bool false)
    | Option.none, Option.none => .ok (.bool true)
  else .error (.unknownOperator op)

/-- `evaluate(node, env)`.  The environment is returned alongside the
result in the error case too, so the dict mutations performed before an
exception escapes stay observable. -/
def evaluate : ASTNode → Env → Except EvalError Value × Env
  | .Number v, env => (.ok (.num v), env)
  | .Variable n, env =>
    match lookupEnv env n with
    | some v => (.ok v, env)
    | Option.none => (.error (.undefinedVariable n), env)
  | .Assignment n v, env =>
    match evaluate v env with
    | (.ok val, env1) => (.ok val, updateEnv env1 n val)
    | (.error e, env1) => (.error e, env1)
  | .BinaryOp l op r, env =>
    match evaluate l env with
    | (.error e, env1) => (.error e, env1)
    | (.ok lv, env1) =>
      match evaluate r env1 with
      | (.error e, env2) => (.error e, env2)
      | (.ok rv, env2) =>
        match applyOp op lv rv with
        | .ok v => (.ok v, env2)
        | .error e => (.error e, env2)
  | .IfStatement c t (some el), env =>
    match evaluate c env with
    | (.error err, env1) => (.error err, env1)
    | (.ok cv, env1) =>
      if truthy cv then evaluate t env1 else evaluate el env1
  | .IfStatement c t Option.none, env =>
    match evaluate c env with
    | (.error err, env1) => (.error err, env1)
    | (.ok cv, env1) =>
      if truthy cv then evaluate t env1 else (.ok .none, env1)

/-! Unfolding equations for `evaluate`, one per constructor (the nested
recursion defeats automatic equation generation; each is definitional). -/

theorem evaluate_Number (v : ℚ) (env : Env) :
    evaluate (.Number v) env = (.ok (.num v), env) := rfl

theorem evaluate_Variable (n : String) (env : Env) :
    evaluate (.Variable n) env =
      match lookupEnv env n with
      | some v => (.ok v, env)
      | Option.none => (.error (.undefinedVariable n), env) := rfl

theorem evaluate_Assignment (n : String) (v : ASTNode) (env : Env) :
    evaluate (.Assignment n v) env =
      match evaluate v env with
      | (.ok val, env1) => (.ok val, updateEnv env1 n val)
      | (.error e, env1) => (.error e, env1) := rfl

theorem evaluate_BinaryOp (l : ASTNode) (op : String) (r : ASTNode) (env : Env) :
    evaluate (.BinaryOp l op r) env =
      match evaluate l env with
      | (.error e, env1) => (.error e, env1)
      | (.ok lv, env1) =>
        match evaluate r env1 with
        | (.error e, env2) => (.error e, env2)
        | (.ok rv, env2) =>
          match applyOp op lv rv with
          | .ok v => (.ok v, env2)
          | .error e => (.error e, env2) := rfl

theorem evaluate_IfStatement_some (c t el : ASTNode) (env : Env) :
    evaluate (.IfStatement c t (some el)) env =
      match evaluate c env with
      | (.error err, env1) => (.error err, env1)
      | (.ok cv, env1) => if truthy cv then evaluate t env1 else evaluate el env1 := rfl

theorem evaluate_IfStatement_none (c t : ASTNode) (env : Env) :
    evaluate (.IfStatement c t Option.none) env =
      match evaluate c env with
      | (.error err, env1) => (.error err, env1)
      | (.ok cv, env1) => if truthy cv then evaluate t env1 else (.ok .none, env1) := rfl

/-- The node contains no `Assignment` anywhere. -/
def noAssign : ASTNode → Bool
  | .Number _ => true
  | .Variable _ => true
  | .Assignment _ _ => false
  | .BinaryOp l _ r => noAssign l && noAssign r
  | .IfStatement c t (some e) => noAssign c && noAssign t && noAssign e
  | .IfStatement c t Option.none => noAssign c && noAssign t

/-- Shape invariant of every AST the parser can emit: `Assignment` nodes
occur only as a whole statement or as an `if` branch, never inside an
expression (`parse_primary` never builds one). -/
def stmtOk : ASTNode → Bool
  | .Number _ => true
  | .Variable _ => true
  | .Assignment _ v => noAssign v
  | .BinaryOp l _ r => noAssign l && noAssign r
  | .IfStatement c t (some e) => noAssign c && stmtOk t && stmtOk e
  | .IfStatement c t Option.none => noAssign c && stmtOk t

theorem stmtOk_of_noAssign : (ast : ASTNode) → noAssign ast = true → stmtOk ast = true
  | .Number _, _ => rfl
  | .Variable _, _ => rfl
  | .Assignment _ _, h => by simp [noAssign] at h
  | .BinaryOp l o r, h => h
  | .IfStatement c t (some e), h => by
    simp only [noAssign, Bool.and_eq_true] at h
    simp only [stmtOk, Bool.and_eq_true]
    exact ⟨⟨h.1.1, stmtOk_of_noAssign t h.1.2⟩, stmtOk_of_noAssign e h.2⟩
  | .IfStatement c t Option.none, h => by
    simp only [noAssign, Bool.and_eq_true] at h
    simp only [stmtOk, Bool.and_eq_true]
    exact ⟨h.1, stmtOk_of_noAssign t h.2⟩

/-- Evaluating an assignment-free node never touches the environment:
the only statement in `evaluate` that writes to `env` is the one in the
`Assignment` arm. -/
theorem evaluate_noAssign_env : (ast : ASTNode) → (env : Env) → noAssign ast = true →
    (evaluate ast env).2 = env
  | .Number _, _, _ => rfl
  | .Variable n, env, _ => by
    simp only [evaluate_Variable]
    cases lookupEnv env n <;> rfl
  | .Assignment _ _, _, h => by simp [noAssign] at h
  | .BinaryOp l op r, env, h => by
    simp only [noAssign, Bool.and_eq_true] at h
    simp only [evaluate_BinaryOp]
    cases hL : evaluate l env with
    | mk resL envL =>
      have hl : envL = env := by
        have h2 := evaluate_noAssign_env l env h.1
        rw [hL] at h2
        exact h2
      cases resL with
      | error e => exact hl
      | ok lv =>
        show (match evaluate r envL with
              | (Except.error e, env2) => ((Except.error e : Except EvalError Value), env2)
              | (Except.ok rv, env2) =>
                match applyOp op lv rv with
                | Except.ok v => (Except.ok v, env2)
                | Except.error e => (Except.error e, env2)).2 = env
        cases hR : evaluate r envL with
        | mk resR envR =>
          have hr : envR = envL := by
            have h2 := evaluate_noAssign_env r envL h.2
            rw [hR] at h2
            exact h2
          cases resR with
          | error e => exact hr.trans hl
          | ok rv =>
            show (match applyOp op lv rv with
                  | Except.ok v => ((Except.ok v : Except EvalError Value), envR)
                  | Except.error e => (Except.error e, envR)).2 = env
            cases applyOp op lv rv <;> exact hr.trans hl
  | .IfStatement c t (some el), env, h => by
    simp only [noAssign, Bool.and_eq_true] at h
    simp only [evaluate_IfStatement_some]
    cases hC : evaluate c env with
    | mk resC envC =>
      have hc : envC = env := by
        have h2 := evaluate_noAssign_env c env h.1.1
        rw [hC] at h2
        exact h2
      cases resC with
      | error er => exact hc
      | ok cv =>
        show (if truthy cv = true then evaluate t envC else evaluate el envC).2 = env
        by_cases htr : truthy cv = true
        · rw [if_pos htr]
          exact (evaluate_noAssign_env t envC h.1.2).trans hc
        · rw [if_neg htr]
          exact (evaluate_noAssign_env el envC h.2).trans hc
  | .IfStatement c t Option.none, env, h => by
    simp only [noAssign, Bool.and_eq_true] at h
    simp only [evaluate_IfStatement_none]
    cases hC : evaluate c env with
    | mk resC envC =>
      have hc : envC = env := by
        have h2 := evaluate_noAssign_env c env h.1
        rw [hC] at h2
        exact h2
      cases resC with
      | error er => exact hc
      | ok cv =>
        show (if truthy cv = true then evaluate t envC else (.ok .none, envC)).2 = env
        by_cases htr : truthy cv = true
        · rw [if_pos htr]
          exact (evaluate_noAssign_env t envC h.2).trans hc
        · rw [if_neg htr]
          exact hc

/-- If evaluation of a parser-shaped statement raises, the environment is
left exactly as it was: the single `env[name] = value` write in the
`Assignment` arm happens after its right-hand side has evaluated
successfully, and is immediately followed by a successful return. -/
theorem evaluate_stmtOk_env : (ast : ASTNode) → (env : Env) → stmtOk ast = true →
    ∀ er, (evaluate ast env).1 = .error er → (evaluate ast env).2 = env
  | .Number _, _, _, _, he => by simp [evaluate_Number] at he
  | .Variable n, env, _, er, he => by
    simp only [evaluate_Variable]
    cases lookupEnv env n <;> rfl
  | .Assignment n v, env, h, er, he => by
    simp only [stmtOk] at h
    simp only [evaluate_Assignment] at he ⊢
    cases hV : evaluate v env with
    | mk resV envV =>
      have hv : envV = env := by
        have h2 := evaluate_noAssign_env v env h
        rw [hV] at h2
        exact h2
      rw [hV] at he
      cases resV with
      | error e => exact hv
      | ok val => simp at he
  | .BinaryOp l op r, env, h, er, he =>
    evaluate_noAssign_env (.BinaryOp l op r) env h
  | .IfStatement c t (some el), env, h, er, he => by
    simp only [stmtOk, Bool.and_eq_true] at h
    simp only [evaluate_IfStatement_some] at he ⊢
    cases hC : evaluate c env with
    | mk resC envC =>
      have hc : envC = env := by
        have h2 := evaluate_noAssign_env c env h.1.1
        rw [hC] at h2
        exact h2
      rw [hC] at he
      cases resC with
      | error e2 => exact hc
      | ok cv =>
        show (if truthy cv = true then evaluate t envC else evaluate el envC).2 = env
        have he2 : (if truthy cv = true then evaluate t envC else evaluate el envC).1
            = Except.error er := he
        by_cases htr : truthy cv = true
        · rw [if_pos htr] at he2 ⊢
          exact (evaluate_stmtOk_env t envC h.1.2 er he2).trans hc
        · rw [if_neg htr] at he2 ⊢
          exact (evaluate_stmtOk_env el envC h.2 er he2).trans hc
  | .IfStatement c t Option.none, env, h, er, he => by
    simp only [stmtOk, Bool.and_eq_true] at h
    simp only [evaluate_IfStatement_none] at he ⊢
    cases hC : evaluate c env with
    | mk resC envC =>
      have hc : envC = env := by
        have h2 := evaluate_noAssign_env c env h.1
        rw [hC] at h2
        exact h2
      rw [hC] at he
      cases resC with
      | error e2 => exact hc
      | ok cv =>
        show (if truthy cv = true then evaluate t envC else (.ok .none, envC)).2 = env
        have he2 : (if truthy cv = true then evaluate t envC
            else ((.ok .none : Except EvalError Value), envC)).1 = Except.error er := he
        by_cases htr : truthy cv = true
        · rw [if_pos htr] at he2 ⊢
          exact (evaluate_stmtOk_env t envC h.2 er he2).trans hc
        · rw [if_neg htr] at he2
          simp at he2

/-- Shape invariant of the parser: expressions contain no `Assignment`
node, and statements satisfy `stmtOk`.  Proven for every fuel value by one
induction covering the six mutually recursive functions. -/
theorem parse_shape_inv (tokens : List String) : (fuel : Nat) →
    (∀ pos a p, parsePrimary tokens fuel pos = .ok (a, p) → noAssign a = true) ∧
    (∀ left pos prec a p, noAssign left = true →
      parseBinLoop tokens fuel left pos prec = .ok (a, p) → noAssign a = true) ∧
    (∀ pos prec a p, parseBinaryOp tokens fuel pos prec = .ok (a, p) → noAssign a = true) ∧
    (∀ pos a p, parseExpression tokens fuel pos = .ok (a, p) → noAssign a = true) ∧
    (∀ pos a p, parseStatement tokens fuel pos = .ok (a, p) → stmtOk a = true) ∧
    (∀ pos tok a p, parseIfOrExpr tokens fuel pos tok = .ok (a, p) → stmtOk a = true) := by
  intro fuel
  induction fuel with
  | zero =>
    refine ⟨?_, ?_, ?_, ?_, ?_, ?_⟩ <;> intros <;>
      simp_all [parsePrimary, parseBinLoop, parseBinaryOp, parseExpression,
        parseStatement, parseIfOrExpr]
  | succ fuel IH =>
    obtain ⟨IHprim, IHloop, IHbin, IHexp, IHstmt, IHife⟩ := IH
    have Hprim : ∀ pos a p, parsePrimary tokens (fuel + 1) pos = .ok (a, p) →
        noAssign a = true := by
      intro pos a p h
      simp only [parsePrimary] at h
      cases hT : tokens.get? pos with
      | none => simp only [hT] at h; simp at h
      | some token =>
        simp only [hT] at h
        by_cases hd : isDigitStr token = true
        · rw [if_pos hd] at h
          simp only [Except.ok.injEq, Prod.mk.injEq] at h
          rw [← h.1]
          rfl
        · rw [if_neg hd] at h
          by_cases hi : isIdentStr token = true
          · rw [if_pos hi] at h
            simp only [Except.ok.injEq, Prod.mk.injEq] at h
            rw [← h.1]
            rfl
          · rw [if_neg hi] at h
            by_cases hp : token = "("
            · rw [if_pos hp] at h
              cases hE : parseExpression tokens fuel (pos + 1) with
              | error e => simp only [hE] at h; simp at h
              | ok np =>
                simp only [hE] at h
                obtain ⟨node, newPos⟩ := np
                cases hT2 : tokens.get? newPos with
                | none => simp only [hT2] at h; simp at h
                | some t =>
                  simp only [hT2] at h
                  by_cases hc : t ≠ ")"
                  · rw [if_pos hc] at h; simp at h
                  · rw [if_neg hc] at h
                    simp only [Except.ok.injEq, Prod.mk.injEq] at h
                    rw [← h.1]
                    exact IHexp (pos + 1) node newPos hE
            · rw [if_neg hp] at h; simp at h
    have Hloop : ∀ left pos prec a p, noAssign left = true →
        parseBinLoop tokens (fuel + 1) left pos prec = .ok (a, p) → noAssign a = true := by
      intro left pos prec a p hLeft h
      simp only [parseBinLoop] at h
      by_cases hlt : pos < tokens.length
      · rw [if_pos hlt] at h
        cases hT : tokens.get? pos with
        | none => simp only [hT] at h; simp at h
        | some op =>
          simp only [hT] at h
          by_cases hprec : opPrecedence op < prec
          · rw [if_pos hprec] at h
            simp only [Except.ok.injEq, Prod.mk.injEq] at h
            rw [← h.1]
            exact hLeft
          · rw [if_neg hprec] at h
            cases hB : parseBinaryOp tokens fuel (pos + 1) (opPrecedence op + 1) with
            | error e => simp only [hB] at h; simp at h
            | ok rp =>
              simp only [hB] at h
              obtain ⟨right, newPos⟩ := rp
              have hRight := IHbin (pos + 1) (opPrecedence op + 1) right newPos hB
              refine IHloop (.BinaryOp left op right) newPos prec a p ?_ h
              simp [noAssign, hLeft, hRight]
      · rw [if_neg hlt] at h
        simp only [Except.ok.injEq, Prod.mk.injEq] at h
        rw [← h.1]
        exact hLeft
    have Hbin : ∀ pos prec a p, parseBinaryOp tokens (fuel + 1) pos prec = .ok (a, p) →
        noAssign a = true := by
      intro pos prec a p h
      simp only [parseBinaryOp] at h
      cases hP : parsePrimary tokens fuel pos with
      | error e => simp only [hP] at h; simp at h
      | ok lp =>
        simp only [hP] at h
        obtain ⟨left, pos1⟩ := lp
        exact IHloop left pos1 prec a p (IHprim pos left pos1 hP) h
    have Hexp : ∀ pos a p, parseExpression tokens (fuel + 1) pos = .ok (a, p) →
        noAssign a = true := by
      intro pos a p h
      simp only [parseExpression] at h
      exact IHbin pos 0 a p h
    have Hife : ∀ pos tok a p, parseIfOrExpr tokens (fuel + 1) pos tok = .ok (a, p) →
        stmtOk a = true := by
      intro pos tok a p h
      simp only [parseIfOrExpr] at h
      by_cases hif : tok = "if"
      · rw [if_pos hif] at h
        cases hE : parseExpression tokens fuel (pos + 1) with
        | error e => simp only [hE] at h; simp at h
        | ok cp =>
          simp only [hE] at h
          obtain ⟨condition, p1⟩ := cp
          cases hT : tokens.get? p1 with
          | none => simp only [hT] at h; simp at h
          | some t =>
            simp only [hT] at h
            by_cases hthen : t ≠ "then"
            · rw [if_pos hthen] at h; simp at h
            · rw [if_neg hthen] at h
              cases hS : parseStatement tokens fuel (p1 + 1) with
              | error e => simp only [hS] at h; simp at h
              | ok tp =>
                simp only [hS] at h
                obtain ⟨thenBranch, p2⟩ := tp
                cases hT2 : tokens.get? p2 with
                | none => simp only [hT2] at h; simp at h
                | some t2 =>
                  simp only [hT2] at h
                  by_cases helse : t2 = "else"
                  · rw [if_pos helse] at h
                    cases hS2 : parseStatement tokens fuel (p2 + 1) with
                    | error e => simp only [hS2] at h; simp at h
                    | ok ep =>
                      simp only [hS2] at h
                      obtain ⟨elseBranch, p3⟩ := ep
                      simp only [Except.ok.injEq, Prod.mk.injEq] at h
                      rw [← h.1]
                      simp only [stmtOk, Bool.and_eq_true]
                      exact ⟨⟨IHexp (pos + 1) condition p1 hE,
                        IHstmt (p1 + 1) thenBranch p2 hS⟩,
                        IHstmt (p2 + 1) elseBranch p3 hS2⟩
                  · rw [if_neg helse] at h
                    simp only [Except.ok.injEq, Prod.mk.injEq] at h
                    rw [← h.1]
                    simp only [stmtOk, Bool.and_eq_true]
                    exact ⟨IHexp (pos + 1) condition p1 hE,
                      IHstmt (p1 + 1) thenBranch p2 hS⟩
      · rw [if_neg hif] at h
        exact stmtOk_of_noAssign a (IHexp pos a p h)
    have Hstmt : ∀ pos a p, parseStatement tokens (fuel + 1) pos = .ok (a, p) →
        stmtOk a = true := by
      intro pos a p h
      simp only [parseStatement] at h
      cases hT : tokens.get? pos with
      | none => simp only [hT] at h; simp at h
      | some token =>
        simp only [hT] at h
        by_cases hi : isIdentStr token = true
        · rw [if_pos hi] at h
          cases hT1 : tokens.get? (pos + 1) with
          | none => simp only [hT1] at h; simp at h
          | some t1 =>
            simp only [hT1] at h
            by_cases heq : t1 = "="
            · rw [if_pos heq] at h
              cases hE : parseExpression tokens fuel (pos + 2) with
              | error e => simp only [hE] at h; simp at h
              | ok vp =>
                simp only [hE] at h
                obtain ⟨value, newPos⟩ := vp
                simp only [Except.ok.injEq, Prod.mk.injEq] at h
                rw [← h.1]
                exact IHexp (pos + 2) value newPos hE
            · rw [if_neg heq] at h
              exact IHife pos token a p h
        · rw [if_neg hi] at h
          exact IHife pos token a p h
    exact ⟨Hprim, Hloop, Hbin, Hexp, Hstmt, Hife⟩

/-- Every AST that `parse` returns satisfies the `stmtOk` shape invariant. -/
theorem parse_stmtOk (tokens : List String) (ast : ASTNode)
    (h : parse tokens = .ok ast) : stmtOk ast = true := by
  unfold parse at h
  cases hS : parseStatement tokens (8 * tokens.length + 8) 0 with
  | error e => simp only [hS] at h; simp at h
  | ok ap =>
    simp only [hS] at h
    obtain ⟨a, p⟩ := ap
    simp only [Except.ok.injEq] at h
    rw [← h]
    exact (parse_shape_inv tokens (8 * tokens.length + 8)).2.2.2.2.1 0 a p hS

/-- Error of either stage, for the whole-pipeline runner. -/
inductive Err where
  | parseErr (e : ParseError)
  | evalErr (e : EvalError)
deriving DecidableEq, Repr

/-- One iteration of the REPL driver on an input line: tokenize, parse,
evaluate against the ambient environment. -/
def run (source : String) (env : Env) : Except Err Value × Env :=
  match parse (tokenize source) with
  | .error e => (.error (.parseErr e), env)
  | .ok ast =>
    match evaluate ast env with
    | (.ok v, env1) => (.ok v, env1)
    | (.error e, env1) => (.error (.evalErr e), env1)

/-! ## Claims -/

/-- Claim C1 (counterexample): chains of equal-precedence operators group
left-associatively, not right-associatively: the pipeline evaluates
`2 - 3 - 4` to `-5.0` (that is `(2 - 3) - 4`), not to `3.0`. -/
theorem C1_counterexample :
    run "2 - 3 - 4" [] = (.ok (.num (-5)), []) ∧
    run "2 - 3 - 4" [] ≠ (.ok (.num 3), []) := by
  have h : run "2 - 3 - 4" [] = (.ok (.num ((2:ℚ) - 3 - 4)), []) := rfl
  rw [h]
  norm_num

/-- Claim C1 (amended): for every chain of binary operators of the same
precedence, parsing groups left-associatively: `2 OP 3 OP 4` parses as
`(2 OP 3) OP 4` for each operator `+ - * /`, and evaluating `2 - 3 - 4`
returns `-5.0`, i.e. `(2 - 3) - 4`. -/
theorem C1_left_assoc :
    parse ["2", "+", "3", "+", "4"] =
      .ok (.BinaryOp (.BinaryOp (.Number 2) "+" (.Number 3)) "+" (.Number 4)) ∧
    parse ["2", "-", "3", "-", "4"] =
      .ok (.BinaryOp (.BinaryOp (.Number 2) "-" (.Number 3)) "-" (.Number 4)) ∧
    parse ["2", "*", "3", "*", "4"] =
      .ok (.BinaryOp (.BinaryOp (.Number 2) "*" (.Number 3)) "*" (.Number 4)) ∧
    parse ["2", "/", "3", "/", "4"] =
      .ok (.BinaryOp (.BinaryOp (.Number 2) "/" (.Number 3)) "/" (.Number 4)) ∧
    tokenize "2 - 3 - 4" = ["2", "-", "3", "-", "4"] ∧
    run "2 - 3 - 4" [] = (.ok (.num (-5)), []) := by
  refine ⟨by decide, by decide, by decide, by decide, by decide, ?_⟩
  have h : run "2 - 3 - 4" [] = (.ok (.num ((2:ℚ) - 3 - 4)), []) := rfl
  rw [h]
  norm_num

/-- Claim C2 (counterexample): `>` does not bind at level 1: it binds at
level 3, tighter than `*`, so `2 * 3 > 1` is not grouped `(2 * 3) > 1`. -/
theorem C2_counterexample :
    opPrecedence ">" = 3 ∧ opPrecedence ">" ≠ 1 ∧ opPrecedence "<" = 3 ∧
    parse (tokenize "2 * 3 > 1") ≠
      .ok (.BinaryOp (.BinaryOp (.Number 2) "*" (.Number 3)) ">" (.Number 1)) := by
  refine ⟨by decide, by decide, by decide, ?_⟩
  intro h
  rw [show parse (tokenize "2 * 3 > 1") =
    .ok (.BinaryOp (.Number 2) "*" (.BinaryOp (.Number 3) ">" (.Number 1))) by decide] at h
  simp at h

/-- Claim C2 (amended): the precedence table is `*`,`/` = 2; `+`,`-` = 1;
`>`,`<` = 3; `=` = 0 (higher binds tighter), so `2 * 3 > 1` groups the
comparison under the multiplication: `2 * (3 > 1)`. -/
theorem C2_precedence :
    opPrecedence "*" = 2 ∧ opPrecedence "/" = 2 ∧
    opPrecedence "+" = 1 ∧ opPrecedence "-" = 1 ∧
    opPrecedence ">" = 3 ∧ opPrecedence "<" = 3 ∧ opPrecedence "=" = 0 ∧
    parse (tokenize "2 * 3 > 1") =
      .ok (.BinaryOp (.Number 2) "*" (.BinaryOp (.Number 3) ">" (.Number 1))) := by
  refine ⟨by decide, by decide, by decide, by decide, by decide, by decide, by decide, by decide⟩

/-- Claim C3: evaluation is atomic with respect to the environment: for
every token sequence on which `parse` succeeds, if evaluating the
resulting AST raises, the environment comes back unchanged. -/
theorem C3_eval_error_env_unchanged (tokens : List String) (ast : ASTNode)
    (env env2 : Env) (er : EvalError)
    (hp : parse tokens = .ok ast) (he : evaluate ast env = (.error er, env2)) :
    env2 = env := by
  have hs := parse_stmtOk tokens ast hp
  have h1 : (evaluate ast env).1 = .error er := by rw [he]
  have h2 := evaluate_stmtOk_env ast env hs er h1
  rw [he] at h2
  exact h2

theorem C3_witness :
    evaluate (.BinaryOp (.Number 1) "/" (.Number 0)) [("z", Value.num 7)]
      = (.error .divisionByZero, [("z", Value.num 7)]) ∧
    ([("z", Value.num 7)] : Env) = [("z", Value.num 7)] :=
  ⟨by decide,
   C3_eval_error_env_unchanged (tokenize "1 / 0") (.BinaryOp (.Number 1) "/" (.Number 0))
     [("z", Value.num 7)] [("z", Value.num 7)] .divisionByZero (by decide) (by decide)⟩

/-- Claim C4 (counterexample): `if 0 > 1 then 5` does not evaluate to the
no-value sentinel: the parser probes the token after the then-branch for
`else` and runs off the end of the token list, so the whole pipeline fails
with the out-of-bounds error. -/
theorem C4_counterexample :
    run "if 0 > 1 then 5" [] = (.error (.parseErr .indexError), []) ∧
    run "if 0 > 1 then 5" [] ≠ (.ok Value.none, []) := by
  refine ⟨by decide, by decide⟩

/-- Claim C4 (amended): evaluating an `IfStatement` node first evaluates
the condition; if it is truthy (nonzero number or true boolean) the
then-branch is evaluated and returned, otherwise the else-branch if
present, otherwise the `None` sentinel, which is distinct from zero and
from false.  `if 1 > 0 then 5 else 10` evaluates to `5` and
`if 0 > 1 then 5 else 10` to `10`; but the source line `if 0 > 1 then 5`
fails at parse time with the out-of-bounds error (the parser probes past
the end for an `else`), while evaluating the corresponding AST directly
does return the sentinel. -/
theorem C4_if_semantics :
    (∀ (c t : ASTNode) (e : Option ASTNode) (env env1 : Env) (er : EvalError),
      evaluate c env = (.error er, env1) →
      evaluate (.IfStatement c t e) env = (.error er, env1)) ∧
    (∀ (c t : ASTNode) (e : Option ASTNode) (env env1 : Env) (cv : Value),
      evaluate c env = (.ok cv, env1) → truthy cv = true →
      evaluate (.IfStatement c t e) env = evaluate t env1) ∧
    (∀ (c t el : ASTNode) (env env1 : Env) (cv : Value),
      evaluate c env = (.ok cv, env1) → truthy cv = false →
      evaluate (.IfStatement c t (some el)) env = evaluate el env1) ∧
    (∀ (c t : ASTNode) (env env1 : Env) (cv : Value),
      evaluate c env = (.ok cv, env1) → truthy cv = false →
      evaluate (.IfStatement c t Option.none) env = (.ok .none, env1)) ∧
    (∀ q : ℚ, truthy (.num q) = true ↔ q ≠ 0) ∧
    (∀ b : Bool, truthy (.bool b) = b) ∧
    run "if 1 > 0 then 5 else 10" [] = (.ok (.num 5), []) ∧
    run "if 0 > 1 then 5 else 10" [] = (.ok (.num 10), []) ∧
    parse (tokenize "if 0 > 1 then 5") = .error .indexError ∧
    evaluate (.IfStatement (.BinaryOp (.Number 0) ">" (.Number 1)) (.Number 5) Option.none) []
      = (.ok .none, []) ∧
    Value.none ≠ .num 0 ∧ (∀ b : Bool, Value.none ≠ .bool b) := by
  refine ⟨?_, ?_, ?_, ?_, ?_, ?_, by decide, by decide, by decide, by decide, by decide,
    by intro b; cases b <;> decide⟩
  · intro c t e env env1 er hC
    cases e with
    | none => rw [evaluate_IfStatement_none, hC]
    | some el => rw [evaluate_IfStatement_some, hC]
  · intro c t e env env1 cv hC htr
    cases e with
    | none =>
      rw [evaluate_IfStatement_none, hC]
      show (if truthy cv = true then evaluate t env1 else _) = evaluate t env1
      rw [if_pos htr]
    | some el =>
      rw [evaluate_IfStatement_some, hC]
      show (if truthy cv = true then evaluate t env1 else _) = evaluate t env1
      rw [if_pos htr]
  · intro c t el env env1 cv hC htr
    rw [evaluate_IfStatement_some, hC]
    show (if truthy cv = true then evaluate t env1 else evaluate el env1) = evaluate el env1
    rw [if_neg (by rw [htr]; exact Bool.false_ne_true)]
  · intro c t env env1 cv hC htr
    rw [evaluate_IfStatement_none, hC]
    show (if truthy cv = true then evaluate t env1
          else ((.ok .none : Except EvalError Value), env1)) = (.ok .none, env1)
    rw [if_neg (by rw [htr]; exact Bool.false_ne_true)]
  · intro q
    simp [truthy]
  · intro b
    rfl

theorem C4_witness :
    evaluate (.IfStatement (.Number 1) (.Number 7) Option.none) [] = evaluate (.Number 7) [] :=
  C4_if_semantics.2.1 (.Number 1) (.Number 7) Option.none [] [] (.num 1) (by decide) (by decide)

/-- Claim C5: with numeric operands, `/` fails with the division-by-zero
error exactly when the right operand evaluates to zero, and returns the
quotient otherwise; in particular the pipeline fails with it on `5 / 0`. -/
theorem C5_division (l r : ASTNode) (env env1 env2 : Env) (lv rv : Value) (a b : ℚ)
    (hL : evaluate l env = (.ok lv, env1))
    (hR : evaluate r env1 = (.ok rv, env2))
    (ha : toNum lv = some a) (hb2 : toNum rv = some b) :
    (evaluate (.BinaryOp l "/" r) env = (.error .divisionByZero, env2) ↔ b = 0) ∧
    (b ≠ 0 → evaluate (.BinaryOp l "/" r) env = (.ok (.num (a / b)), env2)) ∧
    run "5 / 0" [] = (.error (.evalErr .divisionByZero), []) := by
  have hz : b = 0 → evaluate (.BinaryOp l "/" r) env = (.error .divisionByZero, env2) := by
    intro hb
    rw [evaluate_BinaryOp]
    simp only [hL, hR, applyOp, ha, hb2, hb]
    simp
  have hnz : b ≠ 0 → evaluate (.BinaryOp l "/" r) env = (.ok (.num (a / b)), env2) := by
    intro hb
    rw [evaluate_BinaryOp]
    simp only [hL, hR, applyOp, ha, hb2]
    simp [hb]
  refine ⟨⟨?_, hz⟩, hnz, by decide⟩
  intro herr
  by_contra hb
  rw [hnz hb] at herr
  simp at herr

theorem C5_witness :
    (evaluate (.BinaryOp (.Number 5) "/" (.Number 0)) []
        = (.error .divisionByZero, []) ↔ (0:ℚ) = 0) ∧
    ((0:ℚ) ≠ 0 → evaluate (.BinaryOp (.Number 5) "/" (.Number 0)) []
        = (.ok (.num ((5:ℚ) / 0)), [])) ∧
    run "5 / 0" [] = (.error (.evalErr .divisionByZero), []) :=
  C5_division (.Number 5) (.Number 0) [] [] [] (.num 5) (.num 0) 5 0
    (by decide) (by decide) (by decide) (by decide)

/-- Claim C6: evaluating an `Assignment` evaluates its right-hand side,
stores the result under the name (in place), and returns it; the pipeline
on `x = 10 / 5` binds `x` to `2.0` and a subsequent lookup of
`Variable "x"` returns `2.0`. -/
theorem C6_assignment :
    (∀ (n : String) (v : ASTNode) (env env1 : Env) (val : Value),
      evaluate v env = (.ok val, env1) →
      evaluate (.Assignment n v) env = (.ok val, updateEnv env1 n val)) ∧
    run "x = 10 / 5" [] = (.ok (.num 2), [("x", .num 2)]) ∧
    evaluate (.Variable "x") [("x", .num 2)] = (.ok (.num 2), [("x", .num 2)]) := by
  refine ⟨?_, ?_, by decide⟩
  · intro n v env env1 val hV
    rw [evaluate_Assignment]
    simp only [hV]
  · have h : run "x = 10 / 5" []
        = (.ok (.num ((10:ℚ) / 5)), [("x", .num ((10:ℚ) / 5))]) := rfl
    rw [h]
    norm_num

theorem C6_witness :
    evaluate (.Assignment "x" (.Number 4)) [] = (.ok (.num 4), updateEnv [] "x" (.num 4)) :=
  C6_assignment.1 "x" (.Number 4) [] [] (.num 4) (by decide)

/-- Claim C7: evaluating a `Variable` fails with the undefined-variable
error exactly when the name is absent from the environment, and returns
the bound value when present. -/
theorem C7_variable (n : String) (env : Env) :
    (evaluate (.Variable n) env = (.error (.undefinedVariable n), env) ↔
      lookupEnv env n = Option.none) ∧
    (∀ v, lookupEnv env n = some v → evaluate (.Variable n) env = (.ok v, env)) := by
  constructor
  · cases hL : lookupEnv env n with
    | none => simp [evaluate_Variable, hL]
    | some v => simp [evaluate_Variable, hL]
  · intro v hv
    simp [evaluate_Variable, hv]

theorem C7_witness :
    evaluate (.Variable "y") [] = (.error (.undefinedVariable "y"), []) :=
  (C7_variable "y" []).1.mpr (by decide)

/-- Claim C8: the lexer is total by construction (`tokenize` is a function
into token lists with no error outcome), and any character that starts no
token form — not a symbol, not an identifier start, not a digit — is
silently dropped, contributing no token. -/
theorem C8_lexer_skips (c : Char) (cs : List Char)
    (h1 : isSymbolChar c = false) (h2 : isIdentStartChar c = false)
    (h3 : c.isDigit = false) :
    tokenize (String.mk (c :: cs)) = tokenize (String.mk cs) := by
  show tokenizeAux (cs.length + 1) (c :: cs) = tokenizeAux cs.length cs
  simp only [tokenizeAux]
  by_cases hw : isWsChar c = true
  · rw [if_pos hw]
  · rw [if_neg hw]
    rw [if_neg (show ¬(c = '=' ∧ cs.head? = some '>') from fun hconj => by
      rw [hconj.1] at h1
      simp [isSymbolChar] at h1)]
    rw [if_neg (show ¬isSymbolChar c = true from by simp [h1])]
    rw [if_neg (show ¬isIdentStartChar c = true from by simp [h2])]
    rw [if_neg (show ¬c.isDigit = true from by simp [h3])]

theorem C8_witness :
    tokenize (String.mk ['!', '1', '2']) = tokenize (String.mk ['1', '2']) :=
  C8_lexer_skips '!' ['1', '2'] (by decide) (by decide) (by decide)

/-- Claim C9: evaluation of an assignment-free AST is deterministic (it is
a function) and idempotent: it leaves the environment unchanged, and
re-running it on the environment produced by the first run gives the
identical outcome. -/
theorem C9_idempotent (ast : ASTNode) (env : Env) (h : noAssign ast = true) :
    (evaluate ast env).2 = env ∧
    evaluate ast (evaluate ast env).2 = evaluate ast env := by
  have h1 := evaluate_noAssign_env ast env h
  exact ⟨h1, by rw [h1]⟩

theorem C9_witness :
    (evaluate (.Variable "a") [("a", Value.num 4)]).2 = [("a", Value.num 4)] ∧
    evaluate (.Variable "a") (evaluate (.Variable "a") [("a", Value.num 4)]).2
      = evaluate (.Variable "a") [("a", Value.num 4)] :=
  C9_idempotent (.Variable "a") [("a", .num 4)] (by decide)

/-- Claim C10: whenever the first token is an identifier the parser probes
the next token position before deciding between assignment and expression,
so a token sequence that is exactly one identifier fails with the
out-of-bounds error instead of parsing as a `Variable` node; in particular
`x` tokenizes to `["x"]` and fails to parse. -/
theorem C10_bare_identifier :
    (∀ t : String, isIdentStr t = true → parse [t] = .error .indexError) ∧
    tokenize "x" = ["x"] ∧
    parse (tokenize "x") = .error .indexError ∧
    parse (tokenize "x") ≠ .ok (.Variable "x") := by
  refine ⟨?_, by decide, by decide, by decide⟩
  intro t h
  show (match parseStatement [t] (8 * [t].length + 8) 0 with
        | .ok (ast, _) => (.ok ast : Except ParseError ASTNode)
        | .error e => .error e) = .error .indexError
  have hs : parseStatement [t] (8 * [t].length + 8) 0 = .error .indexError := by
    show parseStatement [t] (15 + 1) 0 = .error .indexError
    simp only [parseStatement]
    simp only [List.get?]
    rw [if_pos h]
  rw [hs]

theorem C10_witness : parse ["x"] = .error .indexError :=
  C10_bare_identifier.1 "x" (by decide)

end MiniLang
